import Mathlib

/-!
# Master Note Synthesizer: the page script `script.js`

A shallow embedding of the browser script: file validation, the materials
list, the generate handler, the timer-driven progress sequence and the
placeholder download, followed by the properties proved about them.

JavaScript strings are Lean strings read through their character lists;
`alert` appends to a log of messages; `setTimeout` appends to a queue of
pending timers that a virtual clock fires in order.
-/

namespace NoteSynth

/-! ## Constants (script.js, lines 4-10) -/

def MAX_UPLOAD_FILES : Nat := 50

def MAX_FILE_SIZE_MB : Nat := 50

def STEP_DELAY_MS : Nat := 1500

def COMPLETION_DELAY_MS : Nat := 500

def ALLOWED_SYLLABUS_TYPES : List String := [".pdf", ".doc", ".docx", ".txt"]

def ALLOWED_MATERIAL_TYPES : List String :=
  [".pdf", ".ppt", ".pptx", ".doc", ".docx", ".txt", ".jpg", ".png"]

/-- A browser `File`: the attributes the script reads, `name` and `size` (bytes). -/
structure File where
  name : String
  size : Nat
deriving DecidableEq, Repr

/-! ## String primitives used by the script -/

/-- The method `toLowerCase`: letters `A`-`Z` are folded to `a`-`z`. Characters
outside ASCII are left as they are: the Unicode case tables of the runtime are
not modelled. No letter of the script's two allow-lists is the lower case of a
character outside ASCII, so what `validateFile` returns for them is the same;
the extension quoted in an alert can differ for a name with such characters. -/
def toLowerCase (s : String) : String := ⟨s.data.map Char.toLower⟩

/-- The segments of `cs` between the occurrences of `sep`; never empty. -/
def splitChars (sep : Char) : List Char → List (List Char)
  | [] => [[]]
  | c :: cs =>
    if c = sep then [] :: splitChars sep cs
    else
      match splitChars sep cs with
      | [] => [[c]]
      | seg :: segs => (c :: seg) :: segs

/-- The call `s.split(sep)` for a one-character separator. -/
def split (s : String) (sep : Char) : List String :=
  (splitChars sep s.data).map String.mk

/-- The call `arr.pop()` read for its value: the last element, `undefined` on
an empty array (which `split` never returns). -/
def pop (arr : List String) : Option String := arr.getLast?

/-- String concatenation with a popped value: `undefined` prints as such. -/
def strOfPopped : Option String → String
  | some s => s
  | none => "undefined"

/-- The call `arr.join(sep)`. -/
def join (arr : List String) (sep : String) : String := sep.intercalate arr

/-- Decimal digits of `n` below `10 ^ k`, padded with zeros to `k` places. -/
def padDigits : Nat → Nat → List Char
  | 0, _ => []
  | k + 1, n => padDigits k (n / 10) ++ [Nat.digitChar (n % 10)]

/-- The text `(size / (1024 * 1024)).toFixed(2)`. The quotient is exact in
binary floating point, so the nearest hundredth (ties upwards) is
`(200 * size + 2^20) / 2^21`. -/
def fileSizeMBToFixed2 (size : Nat) : String :=
  let n := (200 * size + 1024 * 1024) / (2 * 1024 * 1024)
  toString (n / 100) ++ "." ++ String.mk (padDigits 2 (n % 100))

/-- The extension `validateFile` derives: a dot and the last dot-separated
segment of the lower-cased name. -/
def fileExtension (file : File) : String :=
  let fileName := toLowerCase file.name
  "." ++ strOfPopped (pop (split fileName '.'))

/-- The alert of the file-type check. -/
def typeAlert (file : File) (allowedTypes : List String) : String :=
  "File type \"" ++ fileExtension file ++ "\" is not supported. Allowed types: "
    ++ join allowedTypes ", "

/-- The alert of the file-size check. -/
def sizeAlert (file : File) : String :=
  "File \"" ++ file.name ++ "\" is too large (" ++ fileSizeMBToFixed2 file.size
    ++ "MB). Maximum size is " ++ toString MAX_FILE_SIZE_MB ++ "MB."

/-- The function `validateFile(file, allowedTypes)` (lines 88-106): the value
returned and the alerts raised. `fileSizeMB > MAX_FILE_SIZE_MB` compares
`size / 2^20`, an exact quotient, with 50: it holds exactly when
`size > 50 * 2^20`. -/
def validateFile (file : File) (allowedTypes : List String) : Bool × List String :=
  if !allowedTypes.contains (fileExtension file) then
    (false, [typeAlert file allowedTypes])
  else if file.size > MAX_FILE_SIZE_MB * (1024 * 1024) then
    (false, [sizeAlert file])
  else
    (true, [])

/-- The characters JavaScript counts as white space or line terminators: what
`trim` strips and what the regular expression class `\s` matches. -/
def isWhiteSpace (c : Char) : Bool :=
  c = '\t' || c = '\n' || c = '\x0b' || c = '\x0c' || c = '\r' || c = ' '
    || c = '\u00a0' || c = '\u1680' || ('\u2000' ≤ c && c ≤ '\u200a')
    || c = '\u2028' || c = '\u2029' || c = '\u202f' || c = '\u205f'
    || c = '\u3000' || c = '\ufeff'

/-- The method `trim`: white space removed at both ends. -/
def trim (s : String) : String :=
  ⟨((s.data.dropWhile isWhiteSpace).reverse.dropWhile isWhiteSpace).reverse⟩

/-- The scan behind `replace(/\s+/g, "_")`: reading left to right, a match of
`\s+` starts at the first white-space character met outside a match, takes
every white-space character that follows, and is replaced by one underscore.
`inMatch` tells that the previous character belongs to the match being read. -/
def replaceScan (inMatch : Bool) : List Char → List Char
  | [] => []
  | c :: cs =>
    if isWhiteSpace c then
      if inMatch then replaceScan true cs else '_' :: replaceScan true cs
    else c :: replaceScan false cs

/-- The call `s.replace(/\s+/g, "_")`. -/
def replaceWhitespaceRuns (s : String) : String := ⟨replaceScan false s.data⟩

/-! ## The page -/

/-- The optional elements of the page: those the script looks up by id and
tests before use. -/
structure Dom where
  /-- Whether `#materials-list` exists. -/
  materialsList : Bool
  /-- Whether `#progress-fill` exists. -/
  progressFill : Bool
  /-- Whether `#progress-status` exists. -/
  progressStatus : Bool
  /-- The ids of the step indicators that exist. -/
  stepIds : List String
  /-- Whether `#progress-section` exists. -/
  progressSection : Bool
  /-- Whether `#download-section` exists. -/
  downloadSection : Bool
deriving DecidableEq, Repr

/-- A callback handed to `setTimeout`: the closure `processStep` of the
`run`-th call of `simulateProcessing`, or `showDownloadSection`. -/
inductive Callback where
  | processStep (run : Nat)
  | showDownloadSection
deriving DecidableEq, Repr

/-- A pending timer: the virtual time it is due at and its callback. -/
structure Timer where
  due : Nat
  callback : Callback
deriving DecidableEq, Repr

/-- One rendered entry of the materials list: the name span and the remove
button with its `data-index` and `aria-label`. -/
structure FileItem where
  text : String
  dataIndex : Nat
  ariaLabel : String
deriving DecidableEq, Repr

/-- One row of the table `steps` of `simulateProcessing`. -/
structure Step where
  id : String
  status : String
  progress : Nat
deriving DecidableEq, Repr

/-- The state of a page view: the script's variables, the parts of the DOM it
reads and writes, the alerts raised so far, the virtual clock and the pending
timers. `#syllabus-info`, `#subject-name` and `#course-code` are taken to
exist; the generate handler reads the first two without a test. -/
structure Page where
  dom : Dom
  /-- The global `uploadedMaterials`. -/
  uploadedMaterials : List File
  /-- Content of `#syllabus-info` (markup in a file name is not interpreted). -/
  syllabusInfo : String
  syllabusInfoDisplay : String
  /-- Children of `#materials-list`: the entries and the count line. -/
  materialsListItems : List FileItem
  countInfo : Option String
  /-- Value of the field `#subject-name`. -/
  subjectName : String
  /-- Value of the field `#course-code`. -/
  courseCode : String
  generateBtnDisplay : String
  progressSectionDisplay : String
  downloadSectionDisplay : String
  progressFillWidth : String
  progressStatusText : String
  /-- Ids of the step indicators carrying the class `active`. -/
  activeSteps : List String
  /-- Messages passed to `alert`, oldest first. -/
  alerts : List String
  /-- Uncaught exceptions, oldest first. -/
  errors : List String
  /-- The virtual clock, in milliseconds. -/
  now : Nat
  /-- Pending timers, in the order `setTimeout` was called. -/
  timers : List Timer
  /-- The variable `currentStep` of each call of `simulateProcessing`. -/
  currentStep : List Nat
  /-- Files offered for download: name and content. -/
  downloads : List (String × String)
deriving DecidableEq, Repr

/-- The call `alert(msg)`. -/
def Page.alert (p : Page) (msg : String) : Page :=
  { p with alerts := p.alerts ++ [msg] }

/-- The call `setTimeout(callback, delay)`. -/
def Page.setTimeout (p : Page) (callback : Callback) (delay : Nat) : Page :=
  { p with timers := p.timers ++ [⟨p.now + delay, callback⟩] }

/-! ## Upload intake (lines 24-205) -/

/-- The function `displaySyllabusFile(file)` (lines 150-154). The text set
starts with the check mark, so it is never empty, whatever the name. -/
def displaySyllabusFile (p : Page) (file : File) : Page :=
  { p with syllabusInfo := "✓ " ++ file.name, syllabusInfoDisplay := "block" }

/-- The loop `files.forEach(...)` of `displayMaterialFiles`: a file is pushed
while the list is shorter than `MAX_UPLOAD_FILES`. -/
def pushFiles (uploaded files : List File) : List File :=
  files.foldl
    (fun acc file => if acc.length < MAX_UPLOAD_FILES then acc ++ [file] else acc) uploaded

/-- The entries `displayMaterialFiles` renders, one for each stored file. -/
def renderItems (uploaded : List File) : List FileItem :=
  uploaded.enum.map fun x => ⟨"📄 " ++ x.2.name, x.1, "Remove " ++ x.2.name⟩

/-- The count line `displayMaterialFiles` renders under a non-empty list. -/
def renderCount (uploaded : List File) : Option String :=
  if uploaded.length > 0 then
    some (toString uploaded.length ++ "/" ++ toString MAX_UPLOAD_FILES ++ " files added")
  else none

/-- The function `displayMaterialFiles(files)` (lines 160-199). -/
def displayMaterialFiles (p : Page) (files : List File) : Page :=
  if !p.dom.materialsList then p
  else
    let uploaded := pushFiles p.uploadedMaterials files
    { p with
      uploadedMaterials := uploaded
      materialsListItems := renderItems uploaded
      countInfo := renderCount uploaded }

/-- The call `arr.splice(start, deleteCount)` for a start index that is not
negative: the array that remains. -/
def splice {α : Type} (arr : List α) (start deleteCount : Nat) : List α :=
  arr.take start ++ arr.drop (start + deleteCount)

/-- The function `removeMaterial(index)` (lines 202-205). -/
def removeMaterial (p : Page) (index : Nat) : Page :=
  displayMaterialFiles { p with uploadedMaterials := splice p.uploadedMaterials index 1 } []

/-- The call `files.filter(file => validateFile(file, allowedTypes))`: the
files kept, and the page with the alerts raised on the way, in order. -/
def filterValid (p : Page) (files : List File) (allowedTypes : List String) :
    List File × Page :=
  (files.filter fun file => (validateFile file allowedTypes).1,
   { p with alerts := p.alerts ++ (files.map fun file => (validateFile file allowedTypes).2).flatten })

/-- The path shared by the syllabus picker and the syllabus drop zone: only
`files[0]` is looked at, and only if there is one. -/
def syllabusIntake (p : Page) (files : List File) : Page :=
  match files.head? with
  | none => p
  | some file =>
    let r := validateFile file ALLOWED_SYLLABUS_TYPES
    let p := { p with alerts := p.alerts ++ r.2 }
    if r.1 then displaySyllabusFile p file else p

/-- The path shared by the materials picker and the materials drop zone. -/
def materialsIntake (p : Page) (files : List File) : Page :=
  let r := filterValid p files ALLOWED_MATERIAL_TYPES
  displayMaterialFiles r.2 r.1

/-- The `change` handler of `#syllabus-input` (lines 53-58). -/
def syllabusInputChange (p : Page) (files : List File) : Page := syllabusIntake p files

/-- The `change` handler of `#materials-input` (lines 61-66). -/
def materialsInputChange (p : Page) (files : List File) : Page := materialsIntake p files

/-- The `drop` handler installed by `setupDragDrop` (lines 135-146); the
class `dragover` of the drop zone is not modelled. -/
def dropZoneDrop (singleFile : Bool) (p : Page) (files : List File) : Page :=
  if singleFile then syllabusIntake p files else materialsIntake p files

/-- The `click` handler of `#materials-list` (lines 69-78) for a click on the
remove button of the `k`-th rendered entry: `data-index` is read back and
handed to `removeMaterial`. The handler exists only if the list does. -/
def materialsListClick (p : Page) (k : Nat) : Page :=
  if !p.dom.materialsList then p
  else
    match p.materialsListItems[k]? with
    | none => p
    | some item => removeMaterial p item.dataIndex

/-! ## Generation (lines 208-309) -/

/-- The table `steps` of `simulateProcessing`. -/
def steps : List Step :=
  [ ⟨"step-1", "Analyzing syllabus structure...", 25⟩,
    ⟨"step-2", "Extracting content from study materials...", 50⟩,
    ⟨"step-3", "Cross-referencing and merging information...", 75⟩,
    ⟨"step-4", "Generating PDF document...", 100⟩ ]

/-- The call `classList.add(id)` on the set of active step indicators. -/
def classListAdd (active : List String) (id : String) : List String :=
  if active.contains id then active else active ++ [id]

/-- The closure `processStep` of the `run`-th call of `simulateProcessing`
(lines 263-291): while `currentStep < steps.length` the step is shown, on
each element that exists, and the next call is scheduled. -/
def processStep (run : Nat) (p : Page) : Page :=
  match p.currentStep[run]? with
  | none => p
  | some currentStep =>
    match steps[currentStep]? with
    | some step =>
      let p := { p with
        progressFillWidth :=
          if p.dom.progressFill then toString step.progress ++ "%" else p.progressFillWidth
        progressStatusText :=
          if p.dom.progressStatus then step.status else p.progressStatusText
        activeSteps :=
          if p.dom.stepIds.contains step.id then classListAdd p.activeSteps step.id
          else p.activeSteps
        currentStep := p.currentStep.set run (currentStep + 1) }
      p.setTimeout (.processStep run) STEP_DELAY_MS
    | none => p.setTimeout .showDownloadSection COMPLETION_DELAY_MS

/-- The function `simulateProcessing()` (lines 251-294): a fresh `currentStep`,
then the first call of `processStep`. -/
def simulateProcessing (p : Page) : Page :=
  processStep p.currentStep.length { p with currentStep := p.currentStep ++ [0] }

/-- The function `showDownloadSection()` (lines 297-309): each section is
switched if it exists; scrolling is not modelled. -/
def showDownloadSection (p : Page) : Page :=
  { p with
    progressSectionDisplay :=
      if p.dom.progressSection then "none" else p.progressSectionDisplay
    downloadSectionDisplay :=
      if p.dom.downloadSection then "block" else p.downloadSectionDisplay }

/-- The `click` handler of `#generate-btn` (lines 218-247). Setting the style
of `#progress-section` or `#download-section` throws when the element is
missing, which ends the handler there. -/
def generateBtnClick (p : Page) : Page :=
  if p.syllabusInfo = "" then p.alert "Please upload your syllabus first."
  else if p.uploadedMaterials.length = 0 then
    p.alert "Please upload at least one study material."
  else if trim p.subjectName = "" then p.alert "Please enter the subject name."
  else
    let p := { p with generateBtnDisplay := "none" }
    if !p.dom.progressSection then
      { p with errors := p.errors ++ ["TypeError: progressSection is null"] }
    else
      let p := { p with progressSectionDisplay := "block" }
      if !p.dom.downloadSection then
        { p with errors := p.errors ++ ["TypeError: downloadSection is null"] }
      else
        simulateProcessing { p with downloadSectionDisplay := "none" }

/-! ## The virtual clock -/

/-- The pending timer that fires next, and the timers left: the earliest due,
the one set first among equals. -/
def nextTimer : List Timer → Option (Timer × List Timer)
  | [] => none
  | t :: ts =>
    match nextTimer ts with
    | none => some (t, [])
    | some (u, rest) => if t.due ≤ u.due then some (t, ts) else some (u, t :: rest)

/-- Running a callback. -/
def runCallback (p : Page) : Callback → Page
  | .processStep run => processStep run p
  | .showDownloadSection => showDownloadSection p

/-- The event loop fires the next pending timer: the clock moves to the time
it is due at (or stays, if that time has passed) and its callback runs. -/
def fireTimer (p : Page) : Page :=
  match nextTimer p.timers with
  | none => p
  | some (t, rest) => runCallback { p with now := max p.now t.due, timers := rest } t.callback

/-- The page after `n` timers have fired. -/
def fireTimers : Nat → Page → Page
  | 0, p => p
  | n + 1, p => fireTimers n (fireTimer p)

/-- Time passes with no event: the clock advances by `ms`, but not beyond the
time the next pending timer is due at. -/
def elapse (p : Page) (ms : Nat) : Page :=
  match nextTimer p.timers with
  | none => { p with now := p.now + ms }
  | some (t, _) => { p with now := max p.now (min (p.now + ms) t.due) }

/-! ## Download (lines 312-387) -/

/-- The operator `a || b` on strings: `b` when `a` is empty. -/
def orElse (a b : String) : String := if a = "" then b else a

/-- The template of `generateSampleContent` up to the subject line. -/
def contentHead : String :=
  "\n"
    ++ "================================================================================\n"
    ++ "                              MASTER NOTES\n"
    ++ "================================================================================\n"
    ++ "\n"

/-- The template of `generateSampleContent` after the date. -/
def contentTail : String :=
  "\n"
    ++ "\n"
    ++ "--------------------------------------------------------------------------------\n"
    ++ "                            TABLE OF CONTENTS\n"
    ++ "--------------------------------------------------------------------------------\n"
    ++ "\n"
    ++ "This is a demo file. In a production environment, this would be a \n"
    ++ "professionally formatted PDF containing:\n"
    ++ "\n"
    ++ "1. Title Page\n"
    ++ "   - Subject Name\n"
    ++ "   - Course Code\n"
    ++ "   - Compilation Info\n"
    ++ "\n"
    ++ "2. Auto-generated Table of Contents\n"
    ++ "\n"
    ++ "3. Syllabus-organized Sections\n"
    ++ "   - Comprehensive explanations\n"
    ++ "   - Key definitions and concepts\n"
    ++ "   - Mathematical formulas\n"
    ++ "   - Step-by-step derivations\n"
    ++ "\n"
    ++ "4. Figures and Tables\n"
    ++ "   - Embedded diagrams\n"
    ++ "   - Properly captioned charts\n"
    ++ "\n"
    ++ "5. Section Summaries\n"
    ++ "   - Key takeaways for each topic\n"
    ++ "\n"
    ++ "6. Index\n"
    ++ "   - Consolidated reference\n"
    ++ "\n"
    ++ "================================================================================\n"
    ++ "                    Thank you for using Master Note Synthesizer!\n"
    ++ "================================================================================\n"

/-- The function `generateSampleContent(subjectName, courseCode)` (lines
342-387), given the global `uploadedMaterials` and the text `date` of
`new Date().toLocaleDateString()`. -/
def generateSampleContent (uploadedMaterials : List File)
    (subjectName courseCode date : String) : String :=
  let header := if courseCode ≠ "" then subjectName ++ " (" ++ courseCode ++ ")" else subjectName
  contentHead ++ "Subject: " ++ header ++ "\n"
    ++ "Compiled from: " ++ toString uploadedMaterials.length ++ " study material(s)" ++ "\n"
    ++ "Generated: " ++ date ++ contentTail

/-- The name the download handler gives the file (line 331). -/
def downloadName (subjectField : String) : String :=
  replaceWhitespaceRuns (orElse subjectField "Master Notes") ++ "_Master_Notes.txt"

/-- The `click` handler of `#download-btn` (lines 319-338). -/
def downloadBtnClick (p : Page) (date : String) : Page :=
  let subjectName := orElse p.subjectName "Master Notes"
  let courseCode := orElse p.courseCode ""
  let content := generateSampleContent p.uploadedMaterials subjectName courseCode date
  let p := { p with
    downloads := p.downloads ++ [(replaceWhitespaceRuns subjectName ++ "_Master_Notes.txt", content)] }
  p.alert ("Demo: In a production environment, this would download a professionally "
    ++ "formatted PDF compiled from your study materials.")

/-! ## Sessions: the events a page view receives -/

/-- An event of a page view: a user action, a timer firing, or time passing. -/
inductive Action where
  | syllabusChange (files : List File)
  | materialsChange (files : List File)
  | syllabusDrop (files : List File)
  | materialsDrop (files : List File)
  | removeClick (k : Nat)
  | typeSubject (value : String)
  | typeCourseCode (value : String)
  | generateClick
  | downloadClick (date : String)
  | timer
  | idle (ms : Nat)
deriving DecidableEq, Repr

/-- The page after one event. -/
def Page.step (p : Page) : Action → Page
  | .syllabusChange files => syllabusInputChange p files
  | .materialsChange files => materialsInputChange p files
  | .syllabusDrop files => dropZoneDrop true p files
  | .materialsDrop files => dropZoneDrop false p files
  | .removeClick k => materialsListClick p k
  | .typeSubject value => { p with subjectName := value }
  | .typeCourseCode value => { p with courseCode := value }
  | .generateClick => generateBtnClick p
  | .downloadClick date => downloadBtnClick p date
  | .timer => fireTimer p
  | .idle ms => elapse p ms

/-- The page after a sequence of events. -/
def Page.run (p : Page) (actions : List Action) : Page := actions.foldl Page.step p

/-- A page with every element the script looks up. -/
def fullDom : Dom :=
  { materialsList := true, progressFill := true, progressStatus := true,
    stepIds := ["step-1", "step-2", "step-3", "step-4"],
    progressSection := true, downloadSection := true }

/-- A sample page view before any event: nothing uploaded, fields empty, the
progress and download sections hidden. The displays a page starts with come
from its markup and style sheet, which the script does not set. -/
def freshPage : Page :=
  { dom := fullDom, uploadedMaterials := [], syllabusInfo := "", syllabusInfoDisplay := "none",
    materialsListItems := [], countInfo := none, subjectName := "", courseCode := "",
    generateBtnDisplay := "", progressSectionDisplay := "none", downloadSectionDisplay := "none",
    progressFillWidth := "0%", progressStatusText := "", activeSteps := [], alerts := [],
    errors := [], now := 0, timers := [], currentStep := [], downloads := [] }

/-! ## Definitions used to state the properties -/

/-- The last dot-separated segment of a character list. -/
def lastSegment (cs : List Char) : List Char := ((splitChars '.' cs).getLast?).getD []

/-- Following the spec's words: the file's extension, read off the name as
written: the characters after its last dot, with the dot in front; a name
without a dot counts whole. -/
def extensionOf (name : String) : String :=
  ⟨'.' :: (name.data.reverse.takeWhile fun c => c != '.').reverse⟩

/-- Following the spec's words: two texts compared case-insensitively. They
are the same once every letter `a`-`z` is written as a capital. -/
def eqIgnoreCase (a b : String) : Bool :=
  a.data.map Char.toUpper == b.data.map Char.toUpper

/-- Following the spec's words: the file's extension, compared
case-insensitively, is in the allow-list. -/
def extensionAllowed (file : File) (allowedTypes : List String) : Bool :=
  allowedTypes.any fun a => eqIgnoreCase a (extensionOf file.name)

/-- Following the spec's words: a field value that is empty or white space only. -/
def isBlank (s : String) : Bool := s.data.all isWhiteSpace

/-- The three preconditions of the generate handler: a syllabus is shown, the
materials list is not empty, the subject name is not blank. -/
def ReadyToGenerate (p : Page) : Prop :=
  p.syllabusInfo ≠ "" ∧ p.uploadedMaterials ≠ [] ∧ isBlank p.subjectName = false

instance (p : Page) : Decidable (ReadyToGenerate p) :=
  inferInstanceAs (Decidable (_ ∧ _ ∧ _))

/-- What the progress surface shows: the status text and the width of the bar. -/
def progressView (p : Page) : String × String := (p.progressStatusText, p.progressFillWidth)

/-- The callback of the timer that fires next, if one is pending. -/
def nextCallback (p : Page) : Option Callback :=
  (nextTimer p.timers).map fun x => x.1.callback

/-- The view `Complete`: progress surface hidden, download surface shown. -/
def isComplete (p : Page) : Bool :=
  p.progressSectionDisplay == "none" && p.downloadSectionDisplay == "block"

/-- The progress surface shows the last row of `steps`. -/
def finalStepShown (p : Page) : Bool :=
  p.progressStatusText == "Generating PDF document..." && p.progressFillWidth == "100%"

/-- The pages a page goes through while its next `n` timers fire, the page
itself first. -/
def history (n : Nat) (p : Page) : List Page :=
  (List.range (n + 1)).map fun k => fireTimers k p

/-- The clock reading of the first page of a list on which `f` holds. -/
def firstTime (f : Page → Bool) : List Page → Option Nat
  | [] => none
  | q :: qs => if f q then some q.now else firstTime f qs

/-- A sample page ready for generation: the fresh page after a syllabus and
two materials were picked and a subject name typed. -/
def readyPage : Page :=
  freshPage.run
    [.syllabusChange [⟨"syllabus.pdf", 1000⟩],
     .materialsChange [⟨"week1.pdf", 2000⟩, ⟨"week2.pptx", 3000⟩],
     .typeSubject "Linear Algebra"]

/-- A run of white space becomes one underscore; any other run stays. -/
def underscoreRun (run : List Char) : List Char :=
  if run.all isWhiteSpace then ['_'] else run

/-- Following the spec's words: the text with every maximal run of white space
replaced by a single underscore. The runs are the maximal blocks of adjacent
characters that are all white space or all not. -/
def underscoreRuns (s : String) : String :=
  ⟨((s.data.splitBy fun a b => isWhiteSpace a == isWhiteSpace b).map underscoreRun).flatten⟩

/-- The text `content` contains the text `needle`: some characters, then
`needle`, then some characters. -/
def Contains (content needle : String) : Prop := needle.data <:+: content.data

instance (content needle : String) : Decidable (Contains content needle) :=
  inferInstanceAs (Decidable (needle.data <:+: content.data))

/-- The content of the file offered last, empty if none was. -/
def lastDownloadContent (p : Page) : String :=
  (p.downloads.getLast?.map Prod.snd).getD ""

/-- The name of the file offered last, empty if none was. -/
def lastDownloadName (p : Page) : String :=
  (p.downloads.getLast?.map Prod.fst).getD ""

/-- A whole generation: the click on the generate button and the five timers
that follow. -/
def fullGeneration : List Action :=
  [.generateClick, .timer, .timer, .timer, .timer, .timer]

/-! # Properties -/

/-! ## Validation -/

theorem toLower_eq_dot (c : Char) : c.toLower = '.' ↔ c = '.' := by
  by_cases h : c.toNat ≥ 65 ∧ c.toNat ≤ 90
  · have hc : c ≠ '.' := by
      rintro rfl
      revert h
      decide
    have hn : Char.ofNat (c.toNat + 32) ≠ '.' := by
      obtain ⟨h1, h2⟩ := h
      generalize c.toNat = n at h1 h2
      interval_cases n <;> decide
    simp [Char.toLower, h, hc, hn]
  · simp [Char.toLower, h]

theorem splitChars_ne_nil (sep : Char) (cs : List Char) : splitChars sep cs ≠ [] := by
  induction cs with
  | nil => simp [splitChars]
  | cons c cs ih =>
    unfold splitChars
    split
    · simp
    · split
      · simp
      · simp

theorem splitChars_map_toLower (cs : List Char) :
    splitChars '.' (cs.map Char.toLower) = (splitChars '.' cs).map (List.map Char.toLower) := by
  induction cs with
  | nil => simp [splitChars]
  | cons c cs ih =>
    by_cases hc : c = '.'
    · subst hc
      have : Char.toLower '.' = '.' := by decide
      simp [splitChars, this, ih]
    · have hl : ¬ c.toLower = '.' := fun h => hc ((toLower_eq_dot c).1 h)
      simp only [List.map_cons, splitChars, hc, hl, if_false, ih]
      cases h : splitChars '.' cs with
      | nil => exact absurd h (splitChars_ne_nil _ _)
      | cons seg segs => simp

theorem splitChars_of_not_mem (sep : Char) (cs : List Char) (h : sep ∉ cs) :
    splitChars sep cs = [cs] := by
  induction cs with
  | nil => simp [splitChars]
  | cons c cs ih =>
    have hc : ¬ c = sep := fun e => h (by simp [e])
    have hcs : sep ∉ cs := fun e => h (by simp [e])
    simp [splitChars, hc, ih hcs]

theorem pop_split (s : String) :
    strOfPopped (pop (split s '.')) = ⟨lastSegment s.data⟩ := by
  unfold pop split lastSegment
  rw [List.getLast?_map]
  cases h : (splitChars '.' s.data).getLast? with
  | none => exact absurd (List.getLast?_eq_none_iff.1 h) (splitChars_ne_nil _ _)
  | some seg => simp [strOfPopped]

theorem lastSegment_map_toLower (cs : List Char) :
    lastSegment (cs.map Char.toLower) = (lastSegment cs).map Char.toLower := by
  unfold lastSegment
  rw [splitChars_map_toLower, List.getLast?_map]
  cases (splitChars '.' cs).getLast? <;> simp

theorem fileExtension_eq (file : File) :
    fileExtension file = ⟨'.' :: lastSegment (file.name.data.map Char.toLower)⟩ := by
  show "." ++ strOfPopped (pop (split (toLowerCase file.name) '.')) = _
  rw [pop_split]
  rfl

theorem validateFile_fst (file : File) (allowedTypes : List String) :
    (validateFile file allowedTypes).1 = true ↔
      fileExtension file ∈ allowedTypes ∧ file.size ≤ MAX_FILE_SIZE_MB * (1024 * 1024) := by
  unfold validateFile
  by_cases h1 : fileExtension file ∈ allowedTypes
  · by_cases h2 : file.size > MAX_FILE_SIZE_MB * (1024 * 1024)
    · simp [h1, h2]
    · simp [h1, h2, Nat.le_of_not_gt h2]
  · simp [h1]

theorem lastSegment_dot_cons (cs : List Char) : lastSegment ('.' :: cs) = lastSegment cs := by
  unfold lastSegment
  cases h : splitChars '.' cs with
  | nil => exact absurd h (splitChars_ne_nil _ _)
  | cons seg segs => simp [splitChars, h]

theorem splitChars_two_of_mem (cs : List Char) (h : '.' ∈ cs) :
    ∃ seg seg2 segs, splitChars '.' cs = seg :: seg2 :: segs := by
  induction cs with
  | nil => simp at h
  | cons c cs ih =>
    by_cases hc : c = '.'
    · cases hs : splitChars '.' cs with
      | nil => exact absurd hs (splitChars_ne_nil _ _)
      | cons seg segs => exact ⟨[], seg, segs, by simp [splitChars, hc, hs]⟩
    · have hmem : '.' ∈ cs := by
        rcases List.mem_cons.1 h with e | e
        · exact absurd e.symm hc
        · exact e
      obtain ⟨seg, seg2, segs, hs⟩ := ih hmem
      exact ⟨c :: seg, seg2, segs, by simp [splitChars, hc, hs]⟩

theorem lastSegment_cons_of_mem (c : Char) (cs : List Char) (hc : c ≠ '.') (h : '.' ∈ cs) :
    lastSegment (c :: cs) = lastSegment cs := by
  obtain ⟨seg, seg2, segs, hs⟩ := splitChars_two_of_mem cs h
  simp [lastSegment, splitChars, hc, hs]

theorem lastSegment_append_dot (pre post : List Char) (h : '.' ∉ post) :
    lastSegment (pre ++ '.' :: post) = post := by
  induction pre with
  | nil =>
    rw [List.nil_append, lastSegment_dot_cons]
    simp [lastSegment, splitChars_of_not_mem _ _ h]
  | cons c pre ih =>
    by_cases hc : c = '.'
    · rw [hc, List.cons_append, lastSegment_dot_cons, ih]
    · rw [List.cons_append, lastSegment_cons_of_mem c _ hc (by simp), ih]

theorem exists_last_dot (cs : List Char) (h : '.' ∈ cs) :
    ∃ pre post, cs = pre ++ '.' :: post ∧ '.' ∉ post := by
  induction cs with
  | nil => simp at h
  | cons c cs ih =>
    by_cases hmem : '.' ∈ cs
    · obtain ⟨pre, post, e, hp⟩ := ih hmem
      exact ⟨c :: pre, post, by rw [e, List.cons_append], hp⟩
    · rcases List.mem_cons.1 h with e | e
      · exact ⟨[], cs, by rw [← e, List.nil_append], hmem⟩
      · exact absurd e hmem

theorem takeWhile_reverse_of_not_mem (post : List Char) (h : '.' ∉ post)
    (rest : List Char) :
    ((post.reverse ++ '.' :: rest).takeWhile fun c => c != '.') = post.reverse := by
  rw [List.takeWhile_append_of_pos]
  · simp
  · intro a ha
    have : a ≠ '.' := fun e => h (List.mem_reverse.1 (e ▸ ha))
    simpa using this

/-- The last segment `split` and `pop` give is the text after the last dot,
or the whole text if there is no dot. -/
theorem lastSegment_eq (cs : List Char) :
    lastSegment cs = (cs.reverse.takeWhile fun c => c != '.').reverse := by
  by_cases h : '.' ∈ cs
  · obtain ⟨pre, post, rfl, hp⟩ := exists_last_dot cs h
    rw [lastSegment_append_dot pre post hp, List.reverse_append, List.reverse_cons,
      List.append_assoc, List.singleton_append, takeWhile_reverse_of_not_mem post hp,
      List.reverse_reverse]
  · have hall : (cs.reverse.takeWhile fun c => c != '.') = cs.reverse := by
      rw [List.takeWhile_eq_self_iff]
      intro a ha
      have : a ≠ '.' := fun e => h (List.mem_reverse.1 (e ▸ ha))
      simpa using this
    rw [hall, List.reverse_reverse]
    simp [lastSegment, splitChars_of_not_mem _ _ h]

theorem toUpper_toLower (c : Char) : c.toLower.toUpper = c.toUpper := by
  by_cases h : c.toNat ≥ 65 ∧ c.toNat ≤ 90
  · obtain ⟨n, h1, h2, rfl⟩ : ∃ n, 65 ≤ n ∧ n ≤ 90 ∧ c = Char.ofNat n :=
      ⟨c.toNat, h.1, h.2, (Char.ofNat_toNat c).symm⟩
    interval_cases n <;> decide
  · have : c.toLower = c := by simp [Char.toLower, h]
    rw [this]

theorem toLower_toUpper (c : Char) : c.toUpper.toLower = c.toLower := by
  by_cases h : c.toNat ≥ 97 ∧ c.toNat ≤ 122
  · obtain ⟨n, h1, h2, rfl⟩ : ∃ n, 97 ≤ n ∧ n ≤ 122 ∧ c = Char.ofNat n :=
      ⟨c.toNat, h.1, h.2, (Char.ofNat_toNat c).symm⟩
    interval_cases n <;> decide
  · have : c.toUpper = c := by simp [Char.toUpper, h]
    rw [this]

theorem fileExtension_eq_map (file : File) :
    fileExtension file = ⟨(extensionOf file.name).data.map Char.toLower⟩ := by
  rw [fileExtension_eq, lastSegment_map_toLower, lastSegment_eq]
  have hdot : Char.toLower '.' = '.' := by decide
  simp [extensionOf, hdot]

/-- For an allow-list entry written in lower case, matching the extension of
the name case-insensitively is being equal to the extension `validateFile`
derives. -/
theorem eqIgnoreCase_iff (a : String) (file : File)
    (ha : a.data.map Char.toLower = a.data) :
    eqIgnoreCase a (extensionOf file.name) = true ↔ fileExtension file = a := by
  rw [fileExtension_eq_map, String.ext_iff]
  unfold eqIgnoreCase
  rw [beq_iff_eq]
  constructor
  · intro h
    have h2 := congrArg (List.map Char.toLower) h
    simp only [List.map_map] at h2
    have e : ∀ l : List Char, List.map (Char.toLower ∘ Char.toUpper) l = l.map Char.toLower := by
      intro l
      apply List.map_congr_left
      intro c _
      exact toLower_toUpper c
    rw [e, e, ha] at h2
    exact h2.symm
  · intro h
    show List.map Char.toUpper a.data = _
    rw [← h]
    simp only [List.map_map]
    apply List.map_congr_left
    intro c _
    exact toUpper_toLower c

theorem extensionAllowed_iff (file : File) (allowedTypes : List String)
    (hl : ∀ a ∈ allowedTypes, a.data.map Char.toLower = a.data) :
    extensionAllowed file allowedTypes = true ↔ fileExtension file ∈ allowedTypes := by
  unfold extensionAllowed
  rw [List.any_eq_true]
  constructor
  · rintro ⟨a, ha, h⟩
    rw [(eqIgnoreCase_iff a file (hl a ha)).1 h]
    exact ha
  · intro h
    exact ⟨_, h, (eqIgnoreCase_iff _ file (hl _ h)).2 rfl⟩

/-- C1: for every file and each allow-list the script's callers pass
(`ALLOWED_SYLLABUS_TYPES`, `ALLOWED_MATERIAL_TYPES`), `validateFile` returns
true if and only if the file's extension (the part of the name after its last
dot, the whole name if it has none), compared case-insensitively, is in the
allow-list and the size is at most 50 * 1024 * 1024 bytes; in every other case
it returns false. -/
theorem validateFile_iff (file : File) (allowedTypes : List String)
    (hcaller : allowedTypes = ALLOWED_SYLLABUS_TYPES ∨
      allowedTypes = ALLOWED_MATERIAL_TYPES) :
    ((validateFile file allowedTypes).1 = true ↔
      extensionAllowed file allowedTypes = true ∧ file.size ≤ 50 * 1024 * 1024) ∧
    ((validateFile file allowedTypes).1 = false ↔
      ¬ (extensionAllowed file allowedTypes = true ∧ file.size ≤ 50 * 1024 * 1024)) := by
  have hl : ∀ a ∈ allowedTypes, a.data.map Char.toLower = a.data := by
    rcases hcaller with rfl | rfl <;> decide
  have h := validateFile_fst file allowedTypes
  simp only [MAX_FILE_SIZE_MB] at h
  rw [← extensionAllowed_iff file allowedTypes hl] at h
  refine ⟨h, ?_⟩
  rw [← h]
  simp

/-- C1, witness: as a syllabus, `Notes.PDF` of 10 bytes is accepted,
`archive.pdf.exe` is rejected, and a `.pdf` of 50 MB and one byte is rejected;
as a material, `Slides.v2.PpTx` of exactly 50 MB is accepted. -/
theorem validateFile_iff_witness :
    (validateFile ⟨"Notes.PDF", 10⟩ ALLOWED_SYLLABUS_TYPES).1 = true ∧
    (validateFile ⟨"archive.pdf.exe", 10⟩ ALLOWED_SYLLABUS_TYPES).1 = false ∧
    (validateFile ⟨"big.pdf", 52428801⟩ ALLOWED_SYLLABUS_TYPES).1 = false ∧
    (validateFile ⟨"Slides.v2.PpTx", 52428800⟩ ALLOWED_MATERIAL_TYPES).1 = true :=
  ⟨(validateFile_iff ⟨"Notes.PDF", 10⟩ ALLOWED_SYLLABUS_TYPES (Or.inl rfl)).1.2
      ⟨by decide, by decide⟩,
    (validateFile_iff ⟨"archive.pdf.exe", 10⟩ ALLOWED_SYLLABUS_TYPES (Or.inl rfl)).2.2
      (by decide),
    (validateFile_iff ⟨"big.pdf", 52428801⟩ ALLOWED_SYLLABUS_TYPES (Or.inl rfl)).2.2
      (by decide),
    (validateFile_iff ⟨"Slides.v2.PpTx", 52428800⟩ ALLOWED_MATERIAL_TYPES (Or.inr rfl)).1.2
      ⟨by decide, by decide⟩⟩

/-- C10: a name without a dot is its own last segment, so the extension is a
dot followed by the whole lower-cased name, and the file is accepted exactly
when that string is in the allow-list and the size is within the ceiling; files
named `pdf` or `TXT` of any size within the ceiling pass both allow-lists. -/
theorem validateFile_no_dot :
    (∀ (file : File) (allowedTypes : List String), '.' ∉ file.name.data →
      fileExtension file = "." ++ toLowerCase file.name ∧
      ((validateFile file allowedTypes).1 = true ↔
        "." ++ toLowerCase file.name ∈ allowedTypes ∧ file.size ≤ 50 * 1024 * 1024)) ∧
    (∀ size : Nat, size ≤ 50 * 1024 * 1024 →
      validateFile ⟨"pdf", size⟩ ALLOWED_SYLLABUS_TYPES = (true, []) ∧
      validateFile ⟨"pdf", size⟩ ALLOWED_MATERIAL_TYPES = (true, []) ∧
      validateFile ⟨"TXT", size⟩ ALLOWED_SYLLABUS_TYPES = (true, []) ∧
      validateFile ⟨"TXT", size⟩ ALLOWED_MATERIAL_TYPES = (true, [])) := by
  constructor
  · intro file allowedTypes hdot
    have hext : fileExtension file = "." ++ toLowerCase file.name := by
      rw [fileExtension_eq]
      have hd : '.' ∉ file.name.data.map Char.toLower := by
        intro hm
        obtain ⟨c, hc, e⟩ := List.mem_map.1 hm
        rw [(toLower_eq_dot c).1 e] at hc
        exact hdot hc
      simp only [lastSegment, splitChars_of_not_mem _ _ hd]
      rfl
    refine ⟨hext, ?_⟩
    have h := validateFile_fst file allowedTypes
    simp only [MAX_FILE_SIZE_MB] at h
    rw [h, hext]
  · intro size hsize
    have hs : ¬ size > MAX_FILE_SIZE_MB * (1024 * 1024) := by
      simp only [MAX_FILE_SIZE_MB]
      omega
    have e1 : fileExtension ⟨"pdf", size⟩ = ".pdf" :=
      (by decide : fileExtension ⟨"pdf", 0⟩ = ".pdf")
    have e2 : fileExtension ⟨"TXT", size⟩ = ".txt" :=
      (by decide : fileExtension ⟨"TXT", 0⟩ = ".txt")
    refine ⟨?_, ?_, ?_, ?_⟩ <;>
      simp [validateFile, e1, e2, hs, ALLOWED_SYLLABUS_TYPES, ALLOWED_MATERIAL_TYPES]

/-- C10, witness: the file named `TXT`, of 7 bytes, against the syllabus
allow-list. -/
theorem validateFile_no_dot_witness :
    fileExtension ⟨"TXT", 7⟩ = "." ++ toLowerCase "TXT" ∧
    ((validateFile ⟨"TXT", 7⟩ ALLOWED_SYLLABUS_TYPES).1 = true ↔
      "." ++ toLowerCase "TXT" ∈ ALLOWED_SYLLABUS_TYPES ∧ 7 ≤ 50 * 1024 * 1024) :=
  validateFile_no_dot.1 ⟨"TXT", 7⟩ ALLOWED_SYLLABUS_TYPES (by decide)


/-! ## Upload intake -/

theorem validateFile_rejected (file : File) (allowedTypes : List String)
    (h : fileExtension file ∉ allowedTypes ∨ file.size > 50 * 1024 * 1024) :
    ∃ msg, (msg = typeAlert file allowedTypes ∨ msg = sizeAlert file) ∧
      validateFile file allowedTypes = (false, [msg]) := by
  by_cases h1 : fileExtension file ∈ allowedTypes
  · have h2 : file.size > MAX_FILE_SIZE_MB * (1024 * 1024) := by
      rcases h with h | h
      · exact absurd h1 h
      · simpa [MAX_FILE_SIZE_MB] using h
    exact ⟨sizeAlert file, Or.inr rfl, by simp [validateFile, h1, h2]⟩
  · exact ⟨typeAlert file allowedTypes, Or.inl rfl, by simp [validateFile, h1]⟩

theorem pushFiles_eq (uploaded files : List File) :
    pushFiles uploaded files =
      uploaded ++ files.take (MAX_UPLOAD_FILES - uploaded.length) := by
  induction files generalizing uploaded with
  | nil => simp [pushFiles]
  | cons f fs ih =>
    have hstep : pushFiles uploaded (f :: fs) =
        pushFiles (if uploaded.length < MAX_UPLOAD_FILES then uploaded ++ [f] else uploaded) fs := by
      simp [pushFiles]
    rw [hstep]
    by_cases hlt : uploaded.length < MAX_UPLOAD_FILES
    · rw [if_pos hlt, ih]
      obtain ⟨k, hk⟩ : ∃ k, MAX_UPLOAD_FILES - uploaded.length = k + 1 :=
        ⟨MAX_UPLOAD_FILES - uploaded.length - 1, by omega⟩
      have hk2 : MAX_UPLOAD_FILES - (uploaded ++ [f]).length = k := by
        simp only [List.length_append, List.length_singleton]
        omega
      rw [hk, hk2]
      simp
    · rw [if_neg hlt, ih]
      have hz : MAX_UPLOAD_FILES - uploaded.length = 0 := by omega
      simp [hz]

theorem displayMaterialFiles_uploaded (p : Page) (files : List File)
    (hdom : p.dom.materialsList = true) :
    (displayMaterialFiles p files).uploadedMaterials =
      p.uploadedMaterials ++ files.take (MAX_UPLOAD_FILES - p.uploadedMaterials.length) := by
  simp [displayMaterialFiles, hdom, pushFiles_eq]

theorem displayMaterialFiles_nil_uploaded (p : Page) :
    (displayMaterialFiles p []).uploadedMaterials = p.uploadedMaterials := by
  unfold displayMaterialFiles
  split <;> simp [pushFiles]

/-- C2: a file whose extension is not in the applicable allow-list, or whose
size exceeds 50 MB, changes nothing but the alerts. Through the syllabus picker
or drop zone, where it is the file looked at, the page is the old page with
one rejection alert for that file added. Through the materials picker or drop
zone, selected alone, the materials list and the syllabus display stay as they
were and the one alert is added; selected among others, the stored list is the
one the rest of the batch gives and the alert is among those raised. -/
theorem intake_rejected (p : Page) (file : File) :
    (fileExtension file ∉ ALLOWED_SYLLABUS_TYPES ∨ file.size > 50 * 1024 * 1024 →
      ∃ msg, (msg = typeAlert file ALLOWED_SYLLABUS_TYPES ∨ msg = sizeAlert file) ∧
        ∀ rest : List File,
          syllabusInputChange p (file :: rest) = p.alert msg ∧
          dropZoneDrop true p (file :: rest) = p.alert msg) ∧
    (fileExtension file ∉ ALLOWED_MATERIAL_TYPES ∨ file.size > 50 * 1024 * 1024 →
      ∃ msg, (msg = typeAlert file ALLOWED_MATERIAL_TYPES ∨ msg = sizeAlert file) ∧
        (materialsInputChange p [file]).uploadedMaterials = p.uploadedMaterials ∧
        (materialsInputChange p [file]).syllabusInfo = p.syllabusInfo ∧
        (materialsInputChange p [file]).syllabusInfoDisplay = p.syllabusInfoDisplay ∧
        (materialsInputChange p [file]).alerts = p.alerts ++ [msg] ∧
        dropZoneDrop false p [file] = materialsInputChange p [file] ∧
        ∀ pre post : List File,
          (materialsInputChange p (pre ++ file :: post)).uploadedMaterials =
            (materialsInputChange p (pre ++ post)).uploadedMaterials ∧
          (materialsInputChange p (pre ++ file :: post)).syllabusInfo = p.syllabusInfo ∧
          (materialsInputChange p (pre ++ file :: post)).syllabusInfoDisplay =
            p.syllabusInfoDisplay ∧
          msg ∈ (materialsInputChange p (pre ++ file :: post)).alerts ∧
          dropZoneDrop false p (pre ++ file :: post) =
            materialsInputChange p (pre ++ file :: post)) := by
  constructor
  · intro h
    obtain ⟨msg, hmsg, hv⟩ := validateFile_rejected file ALLOWED_SYLLABUS_TYPES h
    refine ⟨msg, hmsg, fun rest => ?_⟩
    simp [syllabusInputChange, dropZoneDrop, syllabusIntake, hv, Page.alert]
  · intro h
    obtain ⟨msg, hmsg, hv⟩ := validateFile_rejected file ALLOWED_MATERIAL_TYPES h
    have hdisp : ∀ (q : Page) (fs : List File),
        (displayMaterialFiles q fs).syllabusInfo = q.syllabusInfo ∧
        (displayMaterialFiles q fs).syllabusInfoDisplay = q.syllabusInfoDisplay ∧
        (displayMaterialFiles q fs).alerts = q.alerts := by
      intro q fs
      unfold displayMaterialFiles
      split <;> simp
    have hup : ∀ (q : Page) (al : List String) (fs : List File),
        (displayMaterialFiles { q with alerts := al } fs).uploadedMaterials =
          (displayMaterialFiles q fs).uploadedMaterials := by
      intro q al fs
      unfold displayMaterialFiles
      split <;> simp_all
    refine ⟨msg, hmsg, ?_, ?_, ?_, ?_, rfl, fun pre post => ⟨?_, ?_, ?_, ?_, rfl⟩⟩
    · simp [materialsInputChange, materialsIntake, filterValid, hv, hup,
        displayMaterialFiles_nil_uploaded]
    · simp [materialsInputChange, materialsIntake, filterValid, hdisp]
    · simp [materialsInputChange, materialsIntake, filterValid, hdisp]
    · simp [materialsInputChange, materialsIntake, filterValid, hdisp, hv]
    · simp [materialsInputChange, materialsIntake, filterValid, hv, hup, List.filter_cons]
    · simp [materialsInputChange, materialsIntake, filterValid, hdisp]
    · simp [materialsInputChange, materialsIntake, filterValid, hdisp]
    · simp [materialsInputChange, materialsIntake, filterValid, hdisp, hv]

/-- C2, witness: a program file offered as the syllabus of the fresh page, and
a slide deck of 60 MB offered as a material. -/
theorem intake_rejected_witness :
    ((fileExtension ⟨"setup.exe", 10⟩ ∉ ALLOWED_SYLLABUS_TYPES ∨ 10 > 50 * 1024 * 1024) ∧
      ∃ msg, (msg = typeAlert ⟨"setup.exe", 10⟩ ALLOWED_SYLLABUS_TYPES ∨
          msg = sizeAlert ⟨"setup.exe", 10⟩) ∧
        ∀ rest : List File,
          syllabusInputChange freshPage (⟨"setup.exe", 10⟩ :: rest) = freshPage.alert msg ∧
          dropZoneDrop true freshPage (⟨"setup.exe", 10⟩ :: rest) = freshPage.alert msg) ∧
    ((fileExtension ⟨"deck.pptx", 62914560⟩ ∉ ALLOWED_MATERIAL_TYPES ∨
        62914560 > 50 * 1024 * 1024) ∧
      (materialsInputChange freshPage [⟨"deck.pptx", 62914560⟩]).uploadedMaterials = [] ∧
      (materialsInputChange freshPage [⟨"deck.pptx", 62914560⟩]).alerts =
        ["File \"deck.pptx\" is too large (60.00MB). Maximum size is 50MB."]) :=
  ⟨⟨by decide, (intake_rejected freshPage ⟨"setup.exe", 10⟩).1 (by decide)⟩,
    by decide,
    by
      obtain ⟨msg, -, h1, -, -, -, -⟩ :=
        (intake_rejected freshPage ⟨"deck.pptx", 62914560⟩).2 (by decide)
      exact h1,
    by decide⟩

theorem materialsIntake_alerts (p : Page) (batch : List File) :
    (materialsIntake p batch).alerts =
      p.alerts ++ (batch.map fun f => (validateFile f ALLOWED_MATERIAL_TYPES).2).flatten ∧
    (materialsIntake p batch).errors = p.errors := by
  cases hd : p.dom.materialsList <;>
    simp [materialsIntake, displayMaterialFiles, filterValid, hd]

theorem validateFile_snd_of_valid (file : File) (allowedTypes : List String)
    (h : (validateFile file allowedTypes).1 = true) :
    (validateFile file allowedTypes).2 = [] := by
  unfold validateFile at h ⊢
  split
  · simp_all
  · split <;> simp_all

/-- C3: on a page that has the list container, with at most 50 files stored,
materials intake (picker or drop zone) leaves the old list followed by the
first `50 - |old|` valid files of the batch, in selection order and without
deduplication; the count stays at most 50; the only alerts are the rejections
of invalid files (none for a batch of valid files, whatever overflows) and no
exception is raised; from the empty list, a batch with at most 50 valid files
stores exactly those. -/
theorem materials_intake_capped (p : Page) (batch : List File)
    (hdom : p.dom.materialsList = true) (hold : p.uploadedMaterials.length ≤ 50) :
    (materialsInputChange p batch).uploadedMaterials =
      p.uploadedMaterials ++
        (batch.filter fun f => (validateFile f ALLOWED_MATERIAL_TYPES).1).take
          (50 - p.uploadedMaterials.length) ∧
    (materialsInputChange p batch).uploadedMaterials.length ≤ 50 ∧
    dropZoneDrop false p batch = materialsInputChange p batch ∧
    (materialsInputChange p batch).alerts =
      p.alerts ++ (batch.map fun f => (validateFile f ALLOWED_MATERIAL_TYPES).2).flatten ∧
    ((∀ f ∈ batch, (validateFile f ALLOWED_MATERIAL_TYPES).1 = true) →
      (materialsInputChange p batch).alerts = p.alerts) ∧
    (materialsInputChange p batch).errors = p.errors ∧
    (p.uploadedMaterials = [] →
      (batch.filter fun f => (validateFile f ALLOWED_MATERIAL_TYPES).1).length ≤ 50 →
      (materialsInputChange p batch).uploadedMaterials =
        batch.filter fun f => (validateFile f ALLOWED_MATERIAL_TYPES).1) := by
  have hdom2 : (filterValid p batch ALLOWED_MATERIAL_TYPES).2.dom.materialsList = true := by
    simpa [filterValid] using hdom
  have heq : (materialsInputChange p batch).uploadedMaterials =
      p.uploadedMaterials ++
        (batch.filter fun f => (validateFile f ALLOWED_MATERIAL_TYPES).1).take
          (50 - p.uploadedMaterials.length) := by
    unfold materialsInputChange materialsIntake
    rw [displayMaterialFiles_uploaded _ _ hdom2]
    simp [filterValid, MAX_UPLOAD_FILES]
  have hal := materialsIntake_alerts p batch
  refine ⟨heq, ?_, rfl, hal.1, ?_, hal.2, ?_⟩
  · rw [heq, List.length_append, List.length_take]
    omega
  · intro hall
    have : (batch.map fun f => (validateFile f ALLOWED_MATERIAL_TYPES).2).flatten = [] := by
      rw [List.flatten_eq_nil_iff]
      intro l hl
      obtain ⟨f, hf, rfl⟩ := List.mem_map.1 hl
      exact validateFile_snd_of_valid _ _ (hall f hf)
    show (materialsIntake p batch).alerts = p.alerts
    rw [hal.1, this, List.append_nil]
  · intro hnil hlen
    rw [heq, hnil]
    simp only [List.nil_append, List.length_nil, Nat.sub_zero]
    exact List.take_of_length_le hlen

/-- C3, witness: on the fresh page, a batch of two valid files around an
invalid one stores the two, in order. -/
theorem materials_intake_capped_witness :
    freshPage.dom.materialsList = true ∧ freshPage.uploadedMaterials.length ≤ 50 ∧
    (materialsInputChange freshPage
        [⟨"a.pdf", 1⟩, ⟨"b.exe", 1⟩, ⟨"a.pdf", 1⟩]).uploadedMaterials =
      [⟨"a.pdf", 1⟩, ⟨"a.pdf", 1⟩] :=
  ⟨by decide, by decide,
    (materials_intake_capped freshPage [⟨"a.pdf", 1⟩, ⟨"b.exe", 1⟩, ⟨"a.pdf", 1⟩]
      (by decide) (by decide)).1.trans (by decide)⟩

theorem removeMaterial_uploaded (p : Page) (index : Nat) :
    (removeMaterial p index).uploadedMaterials = splice p.uploadedMaterials index 1 := by
  unfold removeMaterial
  rw [displayMaterialFiles_nil_uploaded]

theorem getElem?_renderItems (uploaded : List File) (k : Nat) :
    (renderItems uploaded)[k]? =
      uploaded[k]?.map fun f => ⟨"📄 " ++ f.name, k, "Remove " ++ f.name⟩ := by
  unfold renderItems
  rw [List.getElem?_map, List.getElem?_enum]
  cases uploaded[k]? <;> rfl

/-- C4: for an index `i` below the length `n` of the materials list,
`removeMaterial(i)` leaves the list with the entry at position `i` deleted: its
length is `n - 1`, the entries before `i` keep their positions, those after
move down by one, and the remaining entries keep their relative order. The
click on the remove button of the `i`-th entry of an up-to-date rendering
calls it with that index. -/
theorem removeMaterial_spec (p : Page) (i : Nat) (hi : i < p.uploadedMaterials.length) :
    (removeMaterial p i).uploadedMaterials = p.uploadedMaterials.eraseIdx i ∧
    (removeMaterial p i).uploadedMaterials =
      p.uploadedMaterials.take i ++ p.uploadedMaterials.drop (i + 1) ∧
    (removeMaterial p i).uploadedMaterials.length = p.uploadedMaterials.length - 1 ∧
    (removeMaterial p i).uploadedMaterials.Sublist p.uploadedMaterials ∧
    (∀ j, j < i → (removeMaterial p i).uploadedMaterials[j]? = p.uploadedMaterials[j]?) ∧
    (∀ j, i ≤ j →
      (removeMaterial p i).uploadedMaterials[j]? = p.uploadedMaterials[j + 1]?) ∧
    (p.dom.materialsList = true → p.materialsListItems = renderItems p.uploadedMaterials →
      materialsListClick p i = removeMaterial p i) := by
  have h1 : (removeMaterial p i).uploadedMaterials = p.uploadedMaterials.eraseIdx i := by
    rw [removeMaterial_uploaded, List.eraseIdx_eq_take_drop_succ]
    rfl
  refine ⟨h1, ?_, ?_, ?_, ?_, ?_, ?_⟩
  · rw [removeMaterial_uploaded]
    rfl
  · rw [h1, List.length_eraseIdx_of_lt hi]
  · rw [h1]
    exact List.eraseIdx_sublist _ _
  · intro j hj
    rw [h1, List.getElem?_eraseIdx_of_lt _ _ _ hj]
  · intro j hj
    rw [h1, List.getElem?_eraseIdx_of_ge _ _ _ hj]
  · intro hdom hrender
    unfold materialsListClick
    rw [hrender, getElem?_renderItems]
    simp [hdom, List.getElem?_eq_getElem hi]

/-- C4, witness: removing index 1 of a three-entry list. -/
theorem removeMaterial_spec_witness :
    (1 : Nat) < [(⟨"a.pdf", 1⟩ : File), ⟨"b.pdf", 2⟩, ⟨"c.pdf", 3⟩].length ∧
    (removeMaterial
        { freshPage with uploadedMaterials := [⟨"a.pdf", 1⟩, ⟨"b.pdf", 2⟩, ⟨"c.pdf", 3⟩] }
        1).uploadedMaterials = [⟨"a.pdf", 1⟩, ⟨"c.pdf", 3⟩] :=
  ⟨by decide,
    (removeMaterial_spec
      { freshPage with uploadedMaterials := [⟨"a.pdf", 1⟩, ⟨"b.pdf", 2⟩, ⟨"c.pdf", 3⟩] }
      1 (by decide)).1.trans (by decide)⟩


/-! ## Generation -/

theorem dropWhile_eq_nil_of_all {α : Type} (f : α → Bool) (l : List α)
    (h : ∀ x ∈ l.dropWhile f, f x = true) : l.dropWhile f = [] := by
  induction l with
  | nil => rfl
  | cons a l ih =>
    by_cases ha : f a = true
    · rw [List.dropWhile_cons_of_pos ha] at h ⊢
      exact ih h
    · rw [List.dropWhile_cons_of_neg ha] at h
      exact absurd (h a (List.mem_cons_self _ _)) ha

theorem trim_eq_empty_iff (s : String) : trim s = "" ↔ isBlank s = true := by
  unfold trim isBlank
  rw [String.ext_iff]
  show ((s.data.dropWhile isWhiteSpace).reverse.dropWhile isWhiteSpace).reverse = [] ↔ _
  simp only [List.reverse_eq_nil_iff, List.all_eq_true]
  rw [List.dropWhile_eq_nil_iff]
  constructor
  · intro h
    have h2 : s.data.dropWhile isWhiteSpace = [] :=
      dropWhile_eq_nil_of_all _ _ fun x hx => h x (List.mem_reverse.2 hx)
    exact List.dropWhile_eq_nil_iff.1 h2
  · intro h
    rw [List.dropWhile_eq_nil_iff.2 h]
    simp

theorem set_concat_length {α : Type} (l : List α) (a b : α) :
    (l ++ [a]).set l.length b = l ++ [b] := by
  induction l with
  | nil => rfl
  | cons x l ih => simp [ih]

theorem width_25 : toString (25 : Nat) ++ "%" = "25%" := by decide

theorem width_50 : toString (50 : Nat) ++ "%" = "50%" := by decide

theorem width_75 : toString (75 : Nat) ++ "%" = "75%" := by decide

theorem width_100 : toString (100 : Nat) ++ "%" = "100%" := by decide

theorem fireTimers_of_no_timers (p : Page) (h : p.timers = []) (n : Nat) :
    fireTimers n p = p := by
  induction n with
  | zero => rfl
  | succ n ih =>
    have : fireTimer p = p := by simp [fireTimer, h, nextTimer]
    rw [fireTimers, this, ih]

theorem fireTimers_add (m n : Nat) (p : Page) :
    fireTimers (m + n) p = fireTimers n (fireTimers m p) := by
  induction m generalizing p with
  | zero => simp [fireTimers]
  | succ m ih =>
    rw [Nat.succ_add]
    simp [fireTimers, ih]

theorem not_trim_of_ready (p : Page) (h : ReadyToGenerate p) : ¬ trim p.subjectName = "" := by
  rw [trim_eq_empty_iff, h.2.2]
  simp

/-- C6: a valid trigger on a page that has the progress elements and no timer
pending shows exactly the four rows of `steps`, in order, one at the click and
one at each of the next three timers; the fourth timer shows nothing new and
the fifth is `showDownloadSection`, after which the page is Complete and no
timer is left, so nothing happens afterwards. The counter of the run is
created at 0, reads 1, 2, 3, 4 after the successive steps and stays at 4. The
sequence does not depend on the page. -/
theorem simulateProcessing_steps (p : Page) (hready : ReadyToGenerate p)
    (hps : p.dom.progressSection = true) (hds : p.dom.downloadSection = true)
    (hpf : p.dom.progressFill = true) (hst : p.dom.progressStatus = true)
    (htimers : p.timers = []) :
    generateBtnClick p =
      processStep p.currentStep.length { p with
        generateBtnDisplay := "none"
        progressSectionDisplay := "block"
        downloadSectionDisplay := "none"
        currentStep := p.currentStep ++ [0] } ∧
    ((List.range 6).map fun k => progressView (fireTimers k (generateBtnClick p))) =
      [("Analyzing syllabus structure...", "25%"),
       ("Extracting content from study materials...", "50%"),
       ("Cross-referencing and merging information...", "75%"),
       ("Generating PDF document...", "100%"),
       ("Generating PDF document...", "100%"),
       ("Generating PDF document...", "100%")] ∧
    ((List.range 6).map fun k =>
        (fireTimers k (generateBtnClick p)).currentStep[p.currentStep.length]?) =
      [some 1, some 2, some 3, some 4, some 4, some 4] ∧
    ((List.range 6).map fun k => nextCallback (fireTimers k (generateBtnClick p))) =
      [some (.processStep p.currentStep.length), some (.processStep p.currentStep.length),
       some (.processStep p.currentStep.length), some (.processStep p.currentStep.length),
       some .showDownloadSection, none] ∧
    ((List.range 6).map fun k => isComplete (fireTimers k (generateBtnClick p))) =
      [false, false, false, false, false, true] ∧
    (∀ n, 5 ≤ n → fireTimers n (generateBtnClick p) = fireTimers 5 (generateBtnClick p)) := by
  obtain ⟨h1, h2, h3⟩ := hready
  have h3' : ¬ trim p.subjectName = "" := not_trim_of_ready p ⟨h1, h2, h3⟩
  have hend : (fireTimers 5 (generateBtnClick p)).timers = [] := by
    simp [fireTimers, generateBtnClick, h1, h2, h3', hps, hds, simulateProcessing, processStep,
      steps, hpf, hst, htimers, Page.setTimeout, fireTimer, nextTimer, runCallback,
      set_concat_length, showDownloadSection]
  refine ⟨?_, ?_, ?_, ?_, ?_, ?_⟩
  · simp [generateBtnClick, h1, h2, h3', hps, hds, simulateProcessing]
  · simp [List.range, List.range.loop, fireTimers, generateBtnClick, h1, h2, h3', hps, hds,
      simulateProcessing, processStep,
      steps, hpf, hst, htimers, Page.setTimeout, fireTimer, nextTimer, runCallback,
      set_concat_length, showDownloadSection, progressView, width_25, width_50, width_75,
      width_100]
  · simp [List.range, List.range.loop, fireTimers, generateBtnClick, h1, h2, h3', hps, hds,
      simulateProcessing, processStep,
      steps, hpf, hst, htimers, Page.setTimeout, fireTimer, nextTimer, runCallback,
      set_concat_length, showDownloadSection]
  · simp [List.range, List.range.loop, fireTimers, generateBtnClick, h1, h2, h3', hps, hds,
      simulateProcessing, processStep,
      steps, hpf, hst, htimers, Page.setTimeout, fireTimer, nextTimer, runCallback,
      set_concat_length, showDownloadSection, nextCallback]
  · simp [List.range, List.range.loop, fireTimers, generateBtnClick, h1, h2, h3', hps, hds,
      simulateProcessing, processStep,
      steps, hpf, hst, htimers, Page.setTimeout, fireTimer, nextTimer, runCallback,
      set_concat_length, showDownloadSection, isComplete]
  · intro n hn
    obtain ⟨m, rfl⟩ : ∃ m, n = 5 + m := ⟨n - 5, by omega⟩
    rw [fireTimers_add, fireTimers_of_no_timers _ hend]

/-- C5: when the syllabus display is empty, or no material is stored, or the
subject name is blank, the generate handler returns the page it was given with
one alert added (the first unmet precondition's) and nothing else changed: no
display switched, no timer set, no counter created, materials and syllabus as
they were. When the three preconditions hold, on a page that has the progress
and download sections, it hides the button, shows the progress section, hides
the download section and starts the step sequence: the first step is shown, the
run's counter reads 1 and the next call of `processStep` is scheduled 1500 ms
ahead; materials, syllabus and alerts are as they were. -/
theorem generate_guard (p : Page) :
    (p.syllabusInfo = "" ∨ p.uploadedMaterials = [] ∨ isBlank p.subjectName = true →
      generateBtnClick p =
        p.alert (if p.syllabusInfo = "" then "Please upload your syllabus first."
          else if p.uploadedMaterials = [] then "Please upload at least one study material."
          else "Please enter the subject name.") ∧
      (generateBtnClick p).generateBtnDisplay = p.generateBtnDisplay ∧
      (generateBtnClick p).progressSectionDisplay = p.progressSectionDisplay ∧
      (generateBtnClick p).downloadSectionDisplay = p.downloadSectionDisplay ∧
      (generateBtnClick p).timers = p.timers ∧
      (generateBtnClick p).currentStep = p.currentStep ∧
      (generateBtnClick p).uploadedMaterials = p.uploadedMaterials ∧
      (generateBtnClick p).syllabusInfo = p.syllabusInfo) ∧
    (ReadyToGenerate p → p.dom.progressSection = true → p.dom.downloadSection = true →
      generateBtnClick p =
        simulateProcessing { p with
          generateBtnDisplay := "none"
          progressSectionDisplay := "block"
          downloadSectionDisplay := "none" } ∧
      (generateBtnClick p).generateBtnDisplay = "none" ∧
      (generateBtnClick p).progressSectionDisplay = "block" ∧
      (generateBtnClick p).downloadSectionDisplay = "none" ∧
      (generateBtnClick p).currentStep = p.currentStep ++ [1] ∧
      (generateBtnClick p).timers =
        p.timers ++ [⟨p.now + 1500, .processStep p.currentStep.length⟩] ∧
      (p.dom.progressStatus = true →
        (generateBtnClick p).progressStatusText = "Analyzing syllabus structure...") ∧
      (p.dom.progressFill = true → (generateBtnClick p).progressFillWidth = "25%") ∧
      (generateBtnClick p).uploadedMaterials = p.uploadedMaterials ∧
      (generateBtnClick p).syllabusInfo = p.syllabusInfo ∧
      (generateBtnClick p).alerts = p.alerts) := by
  constructor
  · intro hnot
    have key : generateBtnClick p =
        p.alert (if p.syllabusInfo = "" then "Please upload your syllabus first."
          else if p.uploadedMaterials = [] then "Please upload at least one study material."
          else "Please enter the subject name.") := by
      by_cases h1 : p.syllabusInfo = ""
      · simp [generateBtnClick, h1]
      · by_cases h2 : p.uploadedMaterials = []
        · simp [generateBtnClick, h1, h2]
        · have h3 : isBlank p.subjectName = true := by
            rcases hnot with h | h | h
            · exact absurd h h1
            · exact absurd h h2
            · exact h
          have h3' : trim p.subjectName = "" := (trim_eq_empty_iff _).2 h3
          simp [generateBtnClick, h1, h2, h3']
    rw [key]
    simp [Page.alert]
  · rintro ⟨h1, h2, h3⟩ hps hds
    have h3' : ¬ trim p.subjectName = "" := not_trim_of_ready p ⟨h1, h2, h3⟩
    refine ⟨?_, ?_, ?_, ?_, ?_, ?_, ?_, ?_, ?_, ?_, ?_⟩
    · simp [generateBtnClick, h1, h2, h3', hps, hds]
    all_goals
      simp +contextual [generateBtnClick, h1, h2, h3', hps, hds, simulateProcessing,
        processStep, steps, Page.setTimeout, set_concat_length, STEP_DELAY_MS, width_25]

/-- C5, witness: the fresh page has no syllabus, and the click only raises the
syllabus alert; the sample page meets the preconditions, and the click starts
the run. -/
theorem generate_guard_witness :
    ((freshPage.syllabusInfo = "" ∨ freshPage.uploadedMaterials = [] ∨
        isBlank freshPage.subjectName = true) ∧
      generateBtnClick freshPage = freshPage.alert "Please upload your syllabus first.") ∧
    (ReadyToGenerate readyPage ∧ readyPage.dom.progressSection = true ∧
      readyPage.dom.downloadSection = true ∧
      (generateBtnClick readyPage).generateBtnDisplay = "none" ∧
      (generateBtnClick readyPage).progressSectionDisplay = "block" ∧
      (generateBtnClick readyPage).timers = [⟨1500, .processStep 0⟩]) :=
  ⟨⟨by decide, ((generate_guard freshPage).1 (by decide)).1⟩,
    by decide, by decide, by decide,
    ((generate_guard readyPage).2 (by decide) (by decide) (by decide)).2.1,
    ((generate_guard readyPage).2 (by decide) (by decide) (by decide)).2.2.1,
    (((generate_guard readyPage).2 (by decide) (by decide) (by decide)).2.2.2.2.2.1).trans
      (by decide)⟩

/-- C6, witness: the run of the sample page. -/
theorem simulateProcessing_steps_witness :
    ReadyToGenerate readyPage ∧ readyPage.timers = [] ∧
    ((List.range 6).map fun k => progressView (fireTimers k (generateBtnClick readyPage))) =
      [("Analyzing syllabus structure...", "25%"),
       ("Extracting content from study materials...", "50%"),
       ("Cross-referencing and merging information...", "75%"),
       ("Generating PDF document...", "100%"),
       ("Generating PDF document...", "100%"),
       ("Generating PDF document...", "100%")] :=
  ⟨by decide, by decide,
    (simulateProcessing_steps readyPage (by decide) (by decide) (by decide) (by decide)
      (by decide) (by decide)).2.1⟩

/-- C7, as amended: in a valid run started at time `t`, the fourth step (100%)
is shown at `t + 4500` and the page becomes Complete at `t + 6500`, that is
`STEP_DELAY_MS + COMPLETION_DELAY_MS` (2000 ms) after the fourth step is shown:
the call of `processStep` that finds no step left runs at `t + 6000` and sets
the timer of `showDownloadSection` `COMPLETION_DELAY_MS` (500 ms) ahead. -/
theorem completion_delay (p : Page) (hready : ReadyToGenerate p)
    (hps : p.dom.progressSection = true) (hds : p.dom.downloadSection = true)
    (hpf : p.dom.progressFill = true) (hst : p.dom.progressStatus = true)
    (htimers : p.timers = []) :
    firstTime finalStepShown (history 5 (generateBtnClick p)) = some (p.now + 4500) ∧
    firstTime isComplete (history 5 (generateBtnClick p)) =
      some (p.now + 4500 + STEP_DELAY_MS + COMPLETION_DELAY_MS) ∧
    (fireTimers 4 (generateBtnClick p)).now = p.now + 6000 ∧
    (fireTimers 4 (generateBtnClick p)).timers =
      [⟨p.now + 6000 + COMPLETION_DELAY_MS, .showDownloadSection⟩] ∧
    (fireTimers 5 (generateBtnClick p)).progressSectionDisplay = "none" ∧
    (fireTimers 5 (generateBtnClick p)).downloadSectionDisplay = "block" := by
  obtain ⟨h1, h2, h3⟩ := hready
  have h3' : ¬ trim p.subjectName = "" := not_trim_of_ready p ⟨h1, h2, h3⟩
  refine ⟨?_, ?_, ?_, ?_, ?_, ?_⟩
  all_goals
    simp [history, firstTime, finalStepShown, isComplete, List.range, List.range.loop,
      fireTimers, generateBtnClick, h1, h2, h3', hps, hds,
      simulateProcessing, processStep,
      steps, hpf, hst, htimers, Page.setTimeout, fireTimer, nextTimer, runCallback,
      set_concat_length, showDownloadSection, STEP_DELAY_MS, COMPLETION_DELAY_MS,
      width_25, width_50, width_75, width_100]

/-- C7, witness: the run of the sample page, started at time 0. -/
theorem completion_delay_witness :
    ReadyToGenerate readyPage ∧ readyPage.timers = [] ∧
    firstTime finalStepShown (history 5 (generateBtnClick readyPage)) = some (0 + 4500) ∧
    firstTime isComplete (history 5 (generateBtnClick readyPage)) =
      some (0 + 4500 + STEP_DELAY_MS + COMPLETION_DELAY_MS) :=
  ⟨by decide, by decide,
    (completion_delay readyPage (by decide) (by decide) (by decide) (by decide)
      (by decide) (by decide)).1,
    (completion_delay readyPage (by decide) (by decide) (by decide) (by decide)
      (by decide) (by decide)).2.1⟩

/-- C7, counterexample: in the run of the sample page the fourth step is shown
at 4500 ms and the page becomes Complete at 6500 ms, so Complete does not come
500 ms after the fourth step is shown. -/
theorem completion_not_500_after_final_step :
    firstTime finalStepShown (history 5 (generateBtnClick readyPage)) = some 4500 ∧
    firstTime isComplete (history 5 (generateBtnClick readyPage)) = some 6500 ∧
    ¬ ∃ t, firstTime finalStepShown (history 5 (generateBtnClick readyPage)) = some t ∧
      firstTime isComplete (history 5 (generateBtnClick readyPage)) =
        some (t + COMPLETION_DELAY_MS) := by
  have e1 : firstTime finalStepShown (history 5 (generateBtnClick readyPage)) = some 4500 := by
    decide
  have e2 : firstTime isComplete (history 5 (generateBtnClick readyPage)) = some 6500 := by
    decide
  refine ⟨e1, e2, ?_⟩
  rintro ⟨t, h1, h2⟩
  rw [e1] at h1
  rw [e2] at h2
  simp only [Option.some.injEq, COMPLETION_DELAY_MS] at h1 h2
  omega


/-! ## Download -/

theorem underscoreRun_group (ag : Char) (g : List Char)
    (hg : ∀ x ∈ g, isWhiteSpace x = isWhiteSpace ag) :
    underscoreRun ((ag :: g).reverse) =
      if isWhiteSpace ag then ['_'] else g.reverse ++ [ag] := by
  have hall : (ag :: g).reverse.all isWhiteSpace = isWhiteSpace ag := by
    cases h : isWhiteSpace ag
    · rw [List.all_eq_false]
      exact ⟨ag, by simp, by simp [h]⟩
    · rw [List.all_eq_true]
      intro x hx
      rcases List.mem_cons.1 (List.mem_reverse.1 hx) with rfl | hx
      · exact h
      · rw [hg x hx, h]
  unfold underscoreRun
  rw [hall, List.reverse_cons]

theorem splitBy_loop_scan (as : List Char) :
    ∀ (ag : Char) (g : List Char) (gs : List (List Char)),
      (∀ x ∈ g, isWhiteSpace x = isWhiteSpace ag) →
      ((List.splitBy.loop (fun a b => isWhiteSpace a == isWhiteSpace b) as ag g gs).map
          underscoreRun).flatten =
        (gs.reverse.map underscoreRun).flatten ++
          (if isWhiteSpace ag then '_' :: replaceScan true as
           else g.reverse ++ ag :: replaceScan false as) := by
  induction as with
  | nil =>
    intro ag g gs hg
    rw [List.splitBy.loop, List.reverse_cons, List.map_append, List.flatten_append,
      List.map_singleton, List.flatten_singleton, underscoreRun_group ag g hg]
    cases isWhiteSpace ag <;> simp [replaceScan]
  | cons a as ih =>
    intro ag g gs hg
    have hgrp := underscoreRun_group ag g hg
    by_cases hR : isWhiteSpace ag = isWhiteSpace a
    · have hR2 : (isWhiteSpace ag == isWhiteSpace a) = true := by simp [hR]
      have hg2 : ∀ x ∈ ag :: g, isWhiteSpace x = isWhiteSpace a := by
        intro x hx
        rcases List.mem_cons.1 hx with rfl | hx
        · exact hR
        · rw [hg x hx, hR]
      rw [List.splitBy.loop]
      simp only [hR2]
      rw [ih a (ag :: g) gs hg2, hR]
      cases ha : isWhiteSpace a <;> simp [replaceScan, ha]
    · have hR2 : (isWhiteSpace ag == isWhiteSpace a) = false := by simp [hR]
      rw [List.splitBy.loop]
      simp only [hR2]
      rw [ih a [] _ (by simp), List.reverse_cons, List.map_append, List.flatten_append,
        List.map_singleton, List.flatten_singleton, hgrp]
      cases hag : isWhiteSpace ag <;> cases ha : isWhiteSpace a <;>
        simp [replaceScan, hag, ha] at hR ⊢

theorem replaceWhitespaceRuns_eq (s : String) : replaceWhitespaceRuns s = underscoreRuns s := by
  unfold replaceWhitespaceRuns underscoreRuns
  congr 1
  cases s.data with
  | nil => simp [replaceScan, List.splitBy]
  | cons a as =>
    rw [List.splitBy, splitBy_loop_scan as a [] [] (by simp)]
    cases ha : isWhiteSpace a <;> simp [replaceScan, ha]

theorem contains_iff (content needle : String) :
    Contains content needle ↔ ∃ pre post : String, content = pre ++ needle ++ post := by
  constructor
  · rintro ⟨s, t, h⟩
    refine ⟨⟨s⟩, ⟨t⟩, ?_⟩
    rw [String.ext_iff]
    simp [String.data_append, h]
  · rintro ⟨pre, post, h⟩
    exact ⟨pre.data, post.data, by simp [h, String.data_append]⟩

theorem contains_mid (a x b : String) : Contains (a ++ x ++ b) x :=
  ⟨a.data, b.data, by simp [String.data_append]⟩

theorem downloadBtnClick_downloads (p : Page) (date : String) :
    (downloadBtnClick p date).downloads =
      p.downloads ++ [(downloadName p.subjectName,
        generateSampleContent p.uploadedMaterials (orElse p.subjectName "Master Notes")
          (orElse p.courseCode "") date)] := by
  simp [downloadBtnClick, downloadName, Page.alert]

/-- C8, as amended: for a subject-name field that is not empty, the file name
offered is the field value with every maximal run of white space replaced by
one underscore, followed by `_Master_Notes.txt`; for an empty field the handler
falls back on the subject `Master Notes` and the name is
`Master_Notes_Master_Notes.txt`. The download handler offers a file of that
name. -/
theorem downloadName_spec (v : String) :
    (v ≠ "" → downloadName v = underscoreRuns v ++ "_Master_Notes.txt") ∧
    (v = "" → downloadName v = "Master_Notes_Master_Notes.txt") ∧
    (∀ (p : Page) (date : String), p.subjectName = v →
      lastDownloadName (downloadBtnClick p date) = downloadName v) := by
  refine ⟨?_, ?_, ?_⟩
  · intro hv
    simp [downloadName, orElse, hv, replaceWhitespaceRuns_eq]
  · rintro rfl
    decide
  · rintro p date rfl
    simp [lastDownloadName, downloadBtnClick_downloads]

/-- C8, witness: the subject `Linear  Algebra`, with two spaces, and the empty
subject. -/
theorem downloadName_spec_witness :
    ("Linear  Algebra" ≠ "" ∧
      downloadName "Linear  Algebra" = underscoreRuns "Linear  Algebra" ++ "_Master_Notes.txt" ∧
      underscoreRuns "Linear  Algebra" = "Linear_Algebra") ∧
    downloadName "" = "Master_Notes_Master_Notes.txt" :=
  ⟨⟨by decide, (downloadName_spec "Linear  Algebra").1 (by decide), by decide⟩,
    (downloadName_spec "").2.1 rfl⟩

/-- C8, counterexample: after a generation the subject field is cleared and the
download requested; the name offered is `Master_Notes_Master_Notes.txt`, not
the (empty) field value with its runs replaced followed by the suffix, which
is `_Master_Notes.txt`. -/
theorem downloadName_empty_subject :
    lastDownloadName
        (readyPage.run (fullGeneration ++ [.typeSubject "", .downloadClick "11/5/2026"])) =
      "Master_Notes_Master_Notes.txt" ∧
    underscoreRuns "" ++ "_Master_Notes.txt" = "_Master_Notes.txt" ∧
    downloadName "" ≠ underscoreRuns "" ++ "_Master_Notes.txt" := by
  refine ⟨by decide, by decide, by decide⟩

/-- C9, as amended: after any sequence of events, the content of the download
contains the line `Subject: <subject> (<code>)` when the course-code field is
not empty and the line `Subject: <subject>` otherwise, where `<subject>` is the
value of the subject-name field, or `Master Notes` when that field is empty;
it contains the value of the subject-name field; and it contains
`Compiled from: <k> study material(s)` where `k` is the number of materials
stored at the moment the download is requested. -/
theorem download_content (p : Page) (actions : List Action) (date : String) :
    Contains (lastDownloadContent ((p.run actions).step (.downloadClick date)))
      ("Subject: " ++
        (if (p.run actions).courseCode ≠ "" then
          orElse (p.run actions).subjectName "Master Notes" ++ " (" ++
            (p.run actions).courseCode ++ ")"
        else orElse (p.run actions).subjectName "Master Notes") ++ "\n") ∧
    Contains (lastDownloadContent ((p.run actions).step (.downloadClick date)))
      (p.run actions).subjectName ∧
    Contains (lastDownloadContent ((p.run actions).step (.downloadClick date)))
      ("Compiled from: " ++ toString (p.run actions).uploadedMaterials.length ++
        " study material(s)") := by
  generalize p.run actions = q
  have hc : lastDownloadContent (q.step (.downloadClick date)) =
      generateSampleContent q.uploadedMaterials (orElse q.subjectName "Master Notes")
        (orElse q.courseCode "") date := by
    simp [lastDownloadContent, Page.step, downloadBtnClick_downloads]
  have hcode : orElse q.courseCode "" = q.courseCode := by
    unfold orElse
    split <;> simp_all
  rw [hc, hcode]
  refine ⟨?_, ?_, ?_⟩
  · have h : generateSampleContent q.uploadedMaterials (orElse q.subjectName "Master Notes")
          q.courseCode date =
        contentHead ++
          ("Subject: " ++
            (if q.courseCode ≠ "" then
              orElse q.subjectName "Master Notes" ++ " (" ++ q.courseCode ++ ")"
            else orElse q.subjectName "Master Notes") ++ "\n") ++
          ("Compiled from: " ++ toString q.uploadedMaterials.length ++ " study material(s)" ++
            "\n" ++ "Generated: " ++ date ++ contentTail) := by
      unfold generateSampleContent
      simp only [String.append_assoc]
    rw [h]
    exact contains_mid _ _ _
  · by_cases hs : q.subjectName = ""
    · rw [hs]
      exact ⟨[], _, rfl⟩
    · have ho : orElse q.subjectName "Master Notes" = q.subjectName := by simp [orElse, hs]
      rw [ho]
      by_cases hk : q.courseCode = ""
      · have h : generateSampleContent q.uploadedMaterials q.subjectName q.courseCode date =
            (contentHead ++ "Subject: ") ++ q.subjectName ++
              ("\n" ++ "Compiled from: " ++ toString q.uploadedMaterials.length ++
                " study material(s)" ++ "\n" ++ "Generated: " ++ date ++ contentTail) := by
          unfold generateSampleContent
          simp only [hk, ne_eq, not_true_eq_false, if_false, String.append_assoc]
        rw [h]
        exact contains_mid _ _ _
      · have h : generateSampleContent q.uploadedMaterials q.subjectName q.courseCode date =
            (contentHead ++ "Subject: ") ++ q.subjectName ++
              (" (" ++ q.courseCode ++ ")" ++ "\n" ++ "Compiled from: " ++
                toString q.uploadedMaterials.length ++
                " study material(s)" ++ "\n" ++ "Generated: " ++ date ++ contentTail) := by
          unfold generateSampleContent
          simp only [hk, ne_eq, not_false_eq_true, if_true, String.append_assoc]
        rw [h]
        exact contains_mid _ _ _
  · have h : generateSampleContent q.uploadedMaterials (orElse q.subjectName "Master Notes")
          q.courseCode date =
        (contentHead ++ "Subject: " ++
            (if q.courseCode ≠ "" then
              orElse q.subjectName "Master Notes" ++ " (" ++ q.courseCode ++ ")"
            else orElse q.subjectName "Master Notes") ++ "\n") ++
          ("Compiled from: " ++ toString q.uploadedMaterials.length ++ " study material(s)") ++
          ("\n" ++ "Generated: " ++ date ++ contentTail) := by
      unfold generateSampleContent
      simp only [String.append_assoc]
    rw [h]
    exact contains_mid _ _ _

/-- C9, witness: the download of the sample page after a generation. -/
theorem download_content_witness :
    Contains (lastDownloadContent
        ((readyPage.run fullGeneration).step (.downloadClick "11/5/2026")))
      ("Compiled from: " ++ toString (readyPage.run fullGeneration).uploadedMaterials.length ++
        " study material(s)") ∧
    (readyPage.run fullGeneration).uploadedMaterials.length = 2 :=
  ⟨(download_content readyPage fullGeneration "11/5/2026").2.2, by decide⟩

/-- C9, counterexample: two materials are stored when generation is triggered;
one is removed after the run and the download requested. The content says
`Compiled from: 1 study material(s)` and does not contain the count at trigger
time. With the subject field cleared and a course code typed before the
download, the content does not contain `Subject:  (MA101)`, the line built from
the empty subject: it falls back on `Master Notes`. -/
theorem download_count_not_at_trigger :
    readyPage.uploadedMaterials.length = 2 ∧
    Contains
      (lastDownloadContent
        (readyPage.run (fullGeneration ++ [.removeClick 0, .downloadClick "11/5/2026"])))
      "Compiled from: 1 study material(s)" ∧
    ¬ Contains
      (lastDownloadContent
        (readyPage.run (fullGeneration ++ [.removeClick 0, .downloadClick "11/5/2026"])))
      "Compiled from: 2 study material(s)" ∧
    ¬ Contains
      (lastDownloadContent
        (readyPage.run (fullGeneration ++
          [.typeSubject "", .typeCourseCode "MA101", .downloadClick "11/5/2026"])))
      "Subject:  (MA101)" ∧
    Contains
      (lastDownloadContent
        (readyPage.run (fullGeneration ++
          [.typeSubject "", .typeCourseCode "MA101", .downloadClick "11/5/2026"])))
      "Subject: Master Notes (MA101)" := by
  refine ⟨by decide, by decide!, by decide!, by decide!, by decide!⟩


end NoteSynth
